import Mathlib

set_option autoImplicit false

/-! Shallow embedding of go-restconf's `main.go`: the RESTCONF HTTP
dispatcher, its route registry, path normalization, the resource
encoders and their XML/JSON serializations, together with theorems
checking the specification's claims against them. -/

namespace GoRestconf

/-! ## Path cleaning: `cleanPath` built on Go's `path.Clean` -/

/-- Split a character list on the path separator `/`, keeping empty
segments (this is how `path.Clean` walks a path segment by segment). -/
def splitOnSlash : List Char → List (List Char)
  | [] => [[]]
  | c :: cs =>
    if c = '/' then [] :: splitOnSlash cs
    else
      match splitOnSlash cs with
      | [] => [[c]]
      | s :: ss => (c :: s) :: ss

/-- One step of Go `path.Clean`'s segment processing on a rooted path:
empty and `.` segments vanish, `..` pops the most recent kept segment
(and is dropped at the root), any other segment is kept. -/
def segStep (stack : List (List Char)) (seg : List Char) : List (List Char) :=
  if seg = [] ∨ seg = ['.'] then stack
  else if seg = ['.', '.'] then stack.tail
  else seg :: stack

/-- Join segments with the path separator. -/
def joinSlash : List (List Char) → List Char
  | [] => []
  | [s] => s
  | s :: ss => s ++ '/' :: joinSlash ss

/-- Models Go's `path.Clean` restricted to rooted inputs (its only call
site, `cleanPath`, always passes a path that begins with `/`): walk the
segments, drop `.` and empty ones, let `..` pop, and rebuild from the
root. -/
def pathCleanList (p : List Char) : List Char :=
  let stack := (splitOnSlash p).foldl segStep []
  if stack = [] then ['/'] else '/' :: joinSlash stack.reverse

/-- Models `cleanPath` of `main.go`: the empty path maps to the root, a
missing leading `/` is added, the path is cleaned, and a trailing `/` of
the original is restored when the cleaned path is not the root. -/
def cleanPathList (p : List Char) : List Char :=
  if p = [] then ['/']
  else
    let q := if p.head? = some '/' then p else '/' :: p
    let np := pathCleanList q
    if q.getLast? = some '/' ∧ np ≠ ['/'] then np ++ ['/'] else np

/-- String-level `cleanPath`. -/
def cleanPath (s : String) : String := String.mk (cleanPathList s.data)

/-- Character-list version of the Go string-prefix test. -/
def listIsPre : List Char → List Char → Bool
  | [], _ => true
  | _ :: _, [] => false
  | p :: ps, c :: cs => p = c && listIsPre ps cs

/-- Models Go's `strings.HasPrefix s pre`. -/
def goHasPre (s pre : String) : Bool := listIsPre pre.data s.data

/-! ## The HTTP response-writer model -/

/-- A request, as the handlers observe it: the method, the `Accept`
header value (the empty string when the header is absent), the URL path,
and the RFC-1123-formatted current time that
`time.Now().Format(time.RFC1123)` yields at handling time. -/
structure Request where
  method : String
  accept : String
  urlPath : String
  now : String

/-- The observable state of an `http.ResponseWriter`: the headers set so
far, the status code written (if any), and the body bytes. -/
structure Response where
  headers : List (String × String)
  status : Option Nat
  body : String
deriving DecidableEq

/-- Set a key in an association list, replacing an existing entry for the
same key (Go `Header.Set`). -/
def setAssoc : List (String × String) → String → String → List (String × String)
  | [], k, v => [(k, v)]
  | (k', v') :: rest, k, v =>
    if k' = k then (k, v) :: rest else (k', v') :: setAssoc rest k v

/-- Models `rsp.Header().Set(k, v)`. -/
def Response.setHeader (rsp : Response) (k v : String) : Response :=
  { rsp with headers := setAssoc rsp.headers k v }

/-- Look up a header value. -/
def Response.getHeader (rsp : Response) (k : String) : Option String :=
  (rsp.headers.find? (fun p => p.1 == k)).map Prod.snd

/-- Models `WriteHeader`: the first explicitly written status wins. -/
def Response.writeHeader (rsp : Response) (code : Nat) : Response :=
  if rsp.status.isSome then rsp else { rsp with status := some code }

/-- Models writing bytes to the body; an implicit 200 is recorded when no
status has been written yet. -/
def Response.write (rsp : Response) (s : String) : Response :=
  let r := rsp.writeHeader 200
  { r with body := r.body ++ s }

/-- A fresh response writer. -/
def Response.empty : Response := ⟨[], none, ""⟩

/-- Models `http.Error`: set the plain-text content type and the nosniff
option, write the status, and print the message with a trailing
newline. -/
def httpError (rsp : Response) (msg : String) (code : Nat) : Response :=
  (((rsp.setHeader "Content-Type" "text/plain; charset=utf-8").setHeader
      "X-Content-Type-Options" "nosniff").writeHeader code).write (msg ++ "\n")

/-! ## Constants of `main.go` -/

def APPLICATION_XRD_XML : String := "application/xrd+xml"

def APPLICATION_DATA_XML : String := "application/yang-data+xml"

def APPLICATION_DATA_JSON : String := "application/yang-data+json"

def RESTCONF_ROOT_PATH : String := "/restconf"

def PUBLIC_XMLNS : String := "urn:ietf:params:xml:ns:yang:ietf-restconf"

def YANG_LIBRARY_VERSION : String := "2016-06-21"

/-! ## Serialization: the Go marshalers on the two resource structs -/

/-- Go `xml.EscapeText` on one character. -/
def xmlEscapeChar (c : Char) : String :=
  if c = '"' then "&#34;"
  else if c = '\'' then "&#39;"
  else if c = '&' then "&amp;"
  else if c = '<' then "&lt;"
  else if c = '>' then "&gt;"
  else if c = '\t' then "&#x9;"
  else if c = '\n' then "&#xA;"
  else if c = '\x0D' then "&#xD;"
  else String.mk [c]

/-- Go `xml.EscapeText` on a string. -/
def xmlEscape (s : String) : String := String.join (s.data.map xmlEscapeChar)

/-- Hexadecimal digit, lower case. -/
def hexDigit (n : Nat) : Char :=
  if n < 10 then Char.ofNat ('0'.toNat + n) else Char.ofNat ('a'.toNat + n - 10)

/-- Go `encoding/json` string escaping (with its default HTML escaping of
angle brackets and ampersands). -/
def jsonEscapeChar (c : Char) : String :=
  if c = '"' then "\\\""
  else if c = '\\' then "\\\\"
  else if c = '\n' then "\\n"
  else if c = '\x0D' then "\\r"
  else if c = '\t' then "\\t"
  else if c = '<' then "\\u003c"
  else if c = '>' then "\\u003e"
  else if c = '&' then "\\u0026"
  else if c.toNat < 32 then
    "\\u00" ++ String.mk [hexDigit (c.toNat / 16), hexDigit (c.toNat % 16)]
  else String.mk [c]

/-- Go `encoding/json` string escaping on a string. -/
def jsonEscape (s : String) : String := String.join (s.data.map jsonEscapeChar)

/-- The `YangLibVer` struct of `main.go`: an XML element
`yang-library-version` with an `xmlns` attribute (both excluded from
JSON by `json:"-"` tags) and a version string that is XML `innerxml`
and JSON key `yang-library-version`. -/
structure YangLibVer where
  XmlLns : String
  Version : String

/-- Models `xml.Marshal` applied to `YangLibVer` with its field tags: the
attribute value is escaped, the version is written verbatim as inner XML
(`xml:",innerxml"`). -/
def YangLibVer.xmlMarshal (y : YangLibVer) : String :=
  "<yang-library-version xmlns=\"" ++ xmlEscape y.XmlLns ++ "\">"
    ++ y.Version ++ "</yang-library-version>"

/-- Models `json.Marshal` applied to `YangLibVer` with its field tags:
only the version is emitted, under the key `yang-library-version`. -/
def YangLibVer.jsonMarshal (y : YangLibVer) : String :=
  "\x7b\"yang-library-version\":\"" ++ jsonEscape y.Version ++ "\"\x7d"

/-- The `RestConfRoot` struct of `main.go`: XML element `restconf` with
an `xmlns` attribute, two empty children `data` and `operations`, and
the `yang-library-version` string child. -/
structure RestConfRoot where
  XmlLns : String
  Yang : String

/-- Models `xml.Marshal` applied to `RestConfRoot` with its field tags
(the empty `struct` fields marshal as empty elements). -/
def RestConfRoot.xmlMarshal (r : RestConfRoot) : String :=
  "<restconf xmlns=\"" ++ xmlEscape r.XmlLns
    ++ "\"><data></data><operations></operations><yang-library-version>"
    ++ xmlEscape r.Yang ++ "</yang-library-version></restconf>"

/-- Models `json.Marshal` applied to `RestConfRoot` with its field tags
(the `XMLName` and `XmlLns` fields carry `json:"-"` and are dropped; the
empty `struct` fields marshal as empty objects). -/
def RestConfRoot.jsonMarshal (r : RestConfRoot) : String :=
  "\x7b\"data\":\x7b\x7d,\"operations\":\x7b\x7d,\"yang-library-version\":\""
    ++ jsonEscape r.Yang ++ "\"\x7d"

/-- The `RestConfJson` wrapper struct of `main.go`. -/
structure RestConfJson where
  Root : RestConfRoot

/-- Models `json.Marshal` applied to `RestConfJson`: the root resource
nested under the single key `ietf-restconf:restconf`. -/
def RestConfJson.jsonMarshal (j : RestConfJson) : String :=
  "\x7b\"ietf-restconf:restconf\":" ++ j.Root.jsonMarshal ++ "\x7d"

/-- Models the `(body, err)` pair returned by `xml.Marshal` on
`YangLibVer`: on this struct type the Go marshaler cannot fail, so the
error side of the sum is never inhabited by a value. -/
def YangLibVer.xmlMarshalE (y : YangLibVer) : Except String String := .ok y.xmlMarshal

/-- Models the `(body, err)` pair returned by `json.Marshal` on
`YangLibVer`. -/
def YangLibVer.jsonMarshalE (y : YangLibVer) : Except String String := .ok y.jsonMarshal

/-- Models the `(body, err)` pair returned by `xml.Marshal` on
`RestConfRoot`. -/
def RestConfRoot.xmlMarshalE (r : RestConfRoot) : Except String String := .ok r.xmlMarshal

/-- Models the `(body, err)` pair returned by `json.Marshal` on
`RestConfJson`. -/
def RestConfJson.jsonMarshalE (j : RestConfJson) : Except String String := .ok j.jsonMarshal

/-! ## Handlers -/

/-- A registered HTTP handler. -/
abbrev Handler : Type := Request → Response → Response

/-- The shared tail of the `Root` and `YangLibVer` handlers: a marshal
error is answered with HTTP 417 and the `Marshal failed!` message, and
a marshaled body is written with status 200 under the negotiated
content type. -/
def marshalRespond (format : String) (res : Except String String) (rsp : Response) : Response :=
  match res with
  | .error e => httpError rsp ("Marshal failed!" ++ e) 417
  | .ok body => ((rsp.setHeader "Content-Type" format).writeHeader 200).write body

namespace RestConf

/-- Models the handler `RestConf.HostMeta`. -/
def HostMeta : Handler := fun req rsp =>
  if req.method ≠ "GET" then httpError rsp "method is not GET!" 400
  else if req.accept ≠ APPLICATION_XRD_XML then httpError rsp "Accept is incorrect!" 400
  else
    let body := "<XRD xmlns='http://docs.oasis-open.org/ns/xri/xrd-1.0'>\n\t\t<Link rel='restconf' href='"
      ++ RESTCONF_ROOT_PATH ++ "'/>\n\t</XRD>"
    ((rsp.setHeader "Content-Type" APPLICATION_XRD_XML).writeHeader 200).write body

/-- The root resource value the `Root` handler builds. -/
def rootValue : RestConfRoot := { XmlLns := PUBLIC_XMLNS, Yang := YANG_LIBRARY_VERSION }

/-- Models the handler `RestConf.Root`. -/
def Root : Handler := fun req rsp =>
  let format := req.accept
  if format = APPLICATION_DATA_XML then
    marshalRespond format rootValue.xmlMarshalE rsp
  else if format = APPLICATION_DATA_JSON then
    marshalRespond format (RestConfJson.mk rootValue).jsonMarshalE rsp
  else httpError rsp "Accept is incorrect!" 400

/-- Models the empty stub handler `RestConf.Data`. -/
def Data : Handler := fun _ rsp => rsp

/-- Models the empty stub handler `RestConf.Operations`. -/
def Operations : Handler := fun _ rsp => rsp

/-- The resource value the `YangLibVer` handler builds. -/
def yangLibVerValue : GoRestconf.YangLibVer :=
  { XmlLns := PUBLIC_XMLNS, Version := YANG_LIBRARY_VERSION }

/-- Models the handler `RestConf.YangLibVer`. -/
def YangLibVer : Handler := fun req rsp =>
  let format := req.accept
  if format = APPLICATION_DATA_XML then
    marshalRespond format yangLibVerValue.xmlMarshalE rsp
  else if format = APPLICATION_DATA_JSON then
    marshalRespond format yangLibVerValue.jsonMarshalE rsp
  else httpError rsp "Accept is incorrect!" 400

end RestConf

/-! ## Registry and dispatch -/

/-- Models the header-setting wrapper `Reg` installs around each handler:
the `Server` and `Date` headers are set before the handler runs. -/
def wrapHandler (h : Handler) : Handler := fun req rsp =>
  h req ((rsp.setHeader "Server" "RESTCONF").setHeader "Date" req.now)

/-- The route table: path-to-handler pairs (one iteration order of the Go
map). -/
abbrev Mux : Type := List (String × Handler)

/-- Models `RestConf.Reg`: `none` stands for `log.Fatal` (the process
aborts) when the path is already registered; otherwise the wrapped
handler is added under the path. -/
def Reg (mux : Mux) (url : String) (h : Handler) : Option Mux :=
  if mux.any (fun r => r.1 == url) then none
  else some (mux ++ [(url, wrapHandler h)])

/-- The route table `NewRestConf` builds. -/
def newRestConfRoutes : Mux :=
  [("/.well-known/host-meta", wrapHandler RestConf.HostMeta),
   (RESTCONF_ROOT_PATH, wrapHandler RestConf.Root),
   (RESTCONF_ROOT_PATH ++ "/data", wrapHandler RestConf.Data),
   (RESTCONF_ROOT_PATH ++ "/operations", wrapHandler RestConf.Operations),
   (RESTCONF_ROOT_PATH ++ "/yang-library-version", wrapHandler RestConf.YangLibVer)]

/-- Models `NewRestConf` as the chain of `Reg` calls from the empty
table. -/
def NewRestConf : Option Mux :=
  (Reg [] "/.well-known/host-meta" RestConf.HostMeta).bind fun m1 =>
  (Reg m1 RESTCONF_ROOT_PATH RestConf.Root).bind fun m2 =>
  (Reg m2 (RESTCONF_ROOT_PATH ++ "/data") RestConf.Data).bind fun m3 =>
  (Reg m3 (RESTCONF_ROOT_PATH ++ "/operations") RestConf.Operations).bind fun m4 =>
  Reg m4 (RESTCONF_ROOT_PATH ++ "/yang-library-version") RestConf.YangLibVer

/-- Models the route selection of `RestConf.ServeHTTP` for one iteration
order of the Go map: normalize the path, take an exact match if the
table has one, otherwise the first registered route whose path is a
string prefix of the normalized path. -/
def dispatchRoute {H : Type} (mux : List (String × H)) (rawPath : String) : Option (String × H) :=
  let path := cleanPath rawPath
  match mux.find? (fun r => r.1 == path) with
  | some r => some r
  | none => mux.find? (fun r => goHasPre path r.1)

/-- Models `RestConf.ServeHTTP`: the matched handler runs, and an
unmatched path is answered by `http.NotFound`. -/
def serveHTTP (mux : Mux) (req : Request) (rsp : Response) : Response :=
  match dispatchRoute mux req.urlPath with
  | some r => r.2 req rsp
  | none => httpError rsp "404 page not found" 404

/-! ## Extraction parsers for the emitted document shapes -/

/-- Strip `pat` from the front of a character list. -/
def stripPre : List Char → List Char → Option (List Char)
  | [], s => some s
  | _ :: _, [] => none
  | p :: ps, c :: cs => if p = c then stripPre ps cs else none

/-- The characters after the first occurrence of `pat`. -/
def afterSub (pat : List Char) : List Char → Option (List Char)
  | [] => stripPre pat []
  | c :: cs =>
    match stripPre pat (c :: cs) with
    | some rest => some rest
    | none => afterSub pat cs

/-- The characters before the first occurrence of `pat`. -/
def upToSub (pat : List Char) : List Char → Option (List Char)
  | [] => (stripPre pat []).map (fun _ => [])
  | c :: cs =>
    match stripPre pat (c :: cs) with
    | some _ => some []
    | none => (upToSub pat cs).map (fun t => c :: t)

/-- The text strictly between the first occurrence of `l` and the first
occurrence of `r` after it: a small extraction parser for the fixed
document shapes the server emits. -/
def textBetween (l r s : String) : Option String :=
  (afterSub l.data s.data).bind fun t => (upToSub r.data t).map String.mk

/-- Whether `pat` occurs in `s` at all. -/
def containsSub (pat s : String) : Bool := (afterSub pat.data s.data).isSome

/-! ## Header-preservation lemmas -/

theorem find?_setAssoc_self (l : List (String × String)) (k v : String) :
    (setAssoc l k v).find? (fun p => p.1 == k) = some (k, v) := by
  induction l with
  | nil => simp [setAssoc]
  | cons a rest ih =>
    obtain ⟨k', v'⟩ := a
    by_cases hk : k' = k
    · subst hk; simp [setAssoc]
    · simp [setAssoc, hk, ih]

theorem find?_setAssoc_ne (l : List (String × String)) (k' v k : String) (hk : k' ≠ k) :
    (setAssoc l k' v).find? (fun p => p.1 == k) = l.find? (fun p => p.1 == k) := by
  induction l with
  | nil => simp [setAssoc, hk]
  | cons a rest ih =>
    obtain ⟨ka, va⟩ := a
    by_cases hka : ka = k'
    · subst hka; simp [setAssoc, hk]
    · by_cases hkk : ka = k
      · subst hkk
        simp [setAssoc, hka]
      · simp [setAssoc, hka, hkk, ih]

theorem getHeader_setHeader_self (rsp : Response) (k v : String) :
    (rsp.setHeader k v).getHeader k = some v := by
  simp [Response.setHeader, Response.getHeader, find?_setAssoc_self]

theorem getHeader_setHeader_ne (rsp : Response) (k' v k : String) (hk : k' ≠ k) :
    (rsp.setHeader k' v).getHeader k = rsp.getHeader k := by
  simp [Response.setHeader, Response.getHeader, find?_setAssoc_ne _ _ _ _ hk]

theorem getHeader_writeHeader (rsp : Response) (c : Nat) (k : String) :
    (rsp.writeHeader c).getHeader k = rsp.getHeader k := by
  simp only [Response.writeHeader]
  split <;> rfl

theorem getHeader_write (rsp : Response) (s : String) (k : String) :
    (rsp.write s).getHeader k = rsp.getHeader k := by
  simp only [Response.write, Response.writeHeader]
  split <;> rfl

theorem getHeader_httpError (rsp : Response) (msg : String) (c : Nat) (k : String)
    (h1 : k ≠ "Content-Type") (h2 : k ≠ "X-Content-Type-Options") :
    (httpError rsp msg c).getHeader k = rsp.getHeader k := by
  unfold httpError
  rw [getHeader_write, getHeader_writeHeader, getHeader_setHeader_ne _ _ _ _ (Ne.symm h2),
    getHeader_setHeader_ne _ _ _ _ (Ne.symm h1)]

theorem getHeader_marshalRespond (format : String) (res : Except String String) (rsp : Response)
    (k : String) (h1 : k ≠ "Content-Type") (h2 : k ≠ "X-Content-Type-Options") :
    (marshalRespond format res rsp).getHeader k = rsp.getHeader k := by
  cases res with
  | error e => exact getHeader_httpError _ _ _ _ h1 h2
  | ok body =>
    show (((rsp.setHeader "Content-Type" format).writeHeader 200).write body).getHeader k = _
    rw [getHeader_write, getHeader_writeHeader, getHeader_setHeader_ne _ _ _ _ (Ne.symm h1)]

/-- A handler that never touches headers other than `Content-Type` and
`X-Content-Type-Options`; all five registered handlers are such. -/
def keepsHeader (h : Handler) : Prop :=
  ∀ req rsp k, k ≠ "Content-Type" → k ≠ "X-Content-Type-Options" →
    (h req rsp).getHeader k = rsp.getHeader k

theorem keepsHeader_hostMeta : keepsHeader RestConf.HostMeta := by
  intro req rsp k h1 h2
  simp only [RestConf.HostMeta]
  split
  · exact getHeader_httpError _ _ _ _ h1 h2
  · split
    · exact getHeader_httpError _ _ _ _ h1 h2
    · rw [getHeader_write, getHeader_writeHeader, getHeader_setHeader_ne _ _ _ _ (Ne.symm h1)]

theorem keepsHeader_root : keepsHeader RestConf.Root := by
  intro req rsp k h1 h2
  simp only [RestConf.Root]
  split
  · exact getHeader_marshalRespond _ _ _ _ h1 h2
  · split
    · exact getHeader_marshalRespond _ _ _ _ h1 h2
    · exact getHeader_httpError _ _ _ _ h1 h2

theorem keepsHeader_data : keepsHeader RestConf.Data := by
  intro req rsp k _ _
  rfl

theorem keepsHeader_operations : keepsHeader RestConf.Operations := by
  intro req rsp k _ _
  rfl

theorem keepsHeader_yangLibVer : keepsHeader RestConf.YangLibVer := by
  intro req rsp k h1 h2
  simp only [RestConf.YangLibVer]
  split
  · exact getHeader_marshalRespond _ _ _ _ h1 h2
  · split
    · exact getHeader_marshalRespond _ _ _ _ h1 h2
    · exact getHeader_httpError _ _ _ _ h1 h2

theorem wrapHandler_sets_server_date (h : Handler) (hk : keepsHeader h) (req : Request)
    (rsp : Response) :
    ((wrapHandler h) req rsp).getHeader "Server" = some "RESTCONF" ∧
    ((wrapHandler h) req rsp).getHeader "Date" = some req.now := by
  unfold wrapHandler
  constructor
  · rw [hk _ _ _ (by decide) (by decide), getHeader_setHeader_ne _ _ _ _ (by decide),
      getHeader_setHeader_self]
  · rw [hk _ _ _ (by decide) (by decide), getHeader_setHeader_self]

/-! ## Dispatch lemmas -/

theorem find?_key_unique {H : Type} {mux : List (String × H)} {k : String} {h : H}
    (hmem : (k, h) ∈ mux) (hnodup : (mux.map Prod.fst).Nodup) :
    mux.find? (fun r => r.1 == k) = some (k, h) := by
  induction mux with
  | nil => cases hmem
  | cons a rest ih =>
    rcases List.mem_cons.mp hmem with heq | hmem'
    · subst heq
      exact List.find?_cons_of_pos _ (by simp)
    · have hne : a.1 ≠ k := by
        intro he
        have hmm : k ∈ rest.map Prod.fst := List.mem_map.mpr ⟨(k, h), hmem', rfl⟩
        rw [List.map_cons, List.nodup_cons] at hnodup
        exact hnodup.1 (he ▸ hmm)
      rw [List.find?_cons_of_neg _ (by simp [hne])]
      rw [List.map_cons, List.nodup_cons] at hnodup
      exact ih hmem' hnodup.2

theorem dispatchRoute_isSome_of_match {H : Type} (mux : List (String × H)) (raw : String)
    (hmatch : ∃ r ∈ mux, goHasPre (cleanPath raw) r.1 = true) :
    ∃ r, dispatchRoute mux raw = some r ∧ r ∈ mux := by
  simp only [dispatchRoute]
  cases hfe : mux.find? (fun r => r.1 == cleanPath raw) with
  | some r => exact ⟨r, rfl, List.mem_of_find?_eq_some hfe⟩
  | none =>
    have hs : (mux.find? (fun r => goHasPre (cleanPath raw) r.1)).isSome :=
      List.find?_isSome.mpr hmatch
    obtain ⟨r, hr⟩ := Option.isSome_iff_exists.mp hs
    exact ⟨r, by rw [hr], List.mem_of_find?_eq_some hr⟩

/-! ## Path-shape lemmas -/

theorem pathCleanList_shape (p : List Char) : ∃ t, pathCleanList p = '/' :: t := by
  simp only [pathCleanList]
  split
  · exact ⟨[], rfl⟩
  · exact ⟨_, rfl⟩

theorem exists_cons_of_ite {c : Prop} [Decidable c] (a : Char) (t : List Char) :
    ∃ u, (if c then (a :: t) ++ ['/'] else a :: t) = a :: u := by
  split
  · exact ⟨t ++ ['/'], rfl⟩
  · exact ⟨t, rfl⟩

theorem cleanPathList_head (p : List Char) : ∃ t, cleanPathList p = '/' :: t := by
  simp only [cleanPathList]
  split
  · exact ⟨[], rfl⟩
  · obtain ⟨t, ht⟩ := pathCleanList_shape (if p.head? = some '/' then p else '/' :: p)
    rw [ht]
    exact exists_cons_of_ite '/' t

theorem cleanPathList_trailing (cs : List Char) :
    cleanPathList (cs ++ ['/']) = ['/'] ∨ ∃ t, cleanPathList (cs ++ ['/']) = t ++ ['/'] := by
  simp only [cleanPathList]
  rw [if_neg (by simp)]
  have hlast :
      (if (cs ++ ['/']).head? = some '/' then cs ++ ['/'] else '/' :: (cs ++ ['/'])).getLast? =
        some '/' := by
    split
    · exact List.getLast?_concat _
    · rw [← List.cons_append]
      exact List.getLast?_concat _
  by_cases hnp :
      pathCleanList (if (cs ++ ['/']).head? = some '/' then cs ++ ['/'] else '/' :: (cs ++ ['/'])) =
        ['/']
  · left
    rw [if_neg (fun hc => hc.2 hnp)]
    exact hnp
  · right
    exact ⟨_, by rw [if_pos ⟨hlast, hnp⟩]⟩

/-! ## Claim theorems -/

/-- C1: dispatch resolves a request path in three stages: the raw path is
normalized by `cleanPath` (the result always begins with `/`, and a
trailing `/` of the original survives unless the cleaned path is the
root); an exact-match route is taken when the table has one; otherwise
the first registered route whose path is a string prefix of the
normalized path is invoked, so dispatch cannot answer not-found while a
prefix route exists; not-found is reached only when no registered path
is a prefix of the normalized path. -/
theorem dispatch_three_stage_resolution {H : Type} (mux : List (String × H)) (raw : String) :
    (∃ t, (cleanPath raw).data = '/' :: t)
    ∧ (∀ cs, raw.data = cs ++ ['/'] →
        cleanPath raw = "/" ∨ ∃ t, (cleanPath raw).data = t ++ ['/'])
    ∧ (∀ h, (cleanPath raw, h) ∈ mux → (mux.map Prod.fst).Nodup →
        dispatchRoute mux raw = some (cleanPath raw, h))
    ∧ ((∃ r ∈ mux, goHasPre (cleanPath raw) r.1 = true) → (dispatchRoute mux raw).isSome = true)
    ∧ (dispatchRoute mux raw = none → ∀ r ∈ mux, goHasPre (cleanPath raw) r.1 = false) := by
  refine ⟨cleanPathList_head raw.data, ?_, ?_, ?_, ?_⟩
  · intro cs hcs
    have htr := cleanPathList_trailing cs
    rw [← hcs] at htr
    rcases htr with h | h
    · left
      show String.mk (cleanPathList raw.data) = "/"
      rw [h]
    · right
      exact h
  · intro h hmem hnodup
    simp only [dispatchRoute]
    rw [find?_key_unique hmem hnodup]
  · intro hmatch
    obtain ⟨r, hr, _⟩ := dispatchRoute_isSome_of_match mux raw hmatch
    rw [hr]
    rfl
  · intro hnone r hr
    simp only [dispatchRoute] at hnone
    cases hfe : mux.find? (fun r => r.1 == cleanPath raw) with
    | some r0 =>
      rw [hfe] at hnone
      simp at hnone
    | none =>
      rw [hfe] at hnone
      have hnp := List.find?_eq_none.mp hnone r hr
      exact Bool.eq_false_iff.mpr hnp

/-- C1 witness: with the program's five route paths in the table, the
path `/restconf/yang-library-version/extra` (a proper extension of a
registered path) is dispatched to some route, not to not-found. -/
theorem dispatch_three_stage_resolution_witness :
    (dispatchRoute ([("/.well-known/host-meta", 0), ("/restconf", 1), ("/restconf/data", 2),
        ("/restconf/operations", 3), ("/restconf/yang-library-version", 4)] : List (String × Nat))
      "/restconf/yang-library-version/extra").isSome = true :=
  (dispatch_three_stage_resolution _ "/restconf/yang-library-version/extra").2.2.2.1 (by decide)

/-- C6: `Reg` adds the route exactly when the path is not yet in the
table, and answers `none` (`log.Fatal`, aborting the process) exactly
when the path is already registered; hence registering the same path
twice always aborts. -/
theorem reg_duplicate_fatal (mux : Mux) (url : String) (h h' : Handler) :
    (Reg mux url h = none ↔ url ∈ mux.map Prod.fst)
    ∧ (∀ m, Reg mux url h = some m → Reg m url h' = none) := by
  constructor
  · constructor
    · intro hn
      by_cases hany : mux.any (fun r => r.1 == url) = true
      · obtain ⟨r, hr, hp⟩ := List.any_eq_true.mp hany
        exact List.mem_map.mpr ⟨r, hr, beq_iff_eq.mp hp⟩
      · exfalso
        simp only [Reg, if_neg hany] at hn
        exact Option.some_ne_none _ hn
    · intro hmem
      obtain ⟨r, hr, hfst⟩ := List.mem_map.mp hmem
      have hany : mux.any (fun r => r.1 == url) = true :=
        List.any_eq_true.mpr ⟨r, hr, beq_iff_eq.mpr hfst⟩
      simp [Reg, hany]
  · intro m hm
    have hany : ¬ (mux.any (fun r => r.1 == url) = true) := by
      intro hany
      simp [Reg, hany] at hm
    simp only [Reg, if_neg hany] at hm
    have hmem : (url, wrapHandler h) ∈ m := by
      rw [← Option.some.inj hm]
      exact List.mem_append.mpr (Or.inr (List.mem_singleton.mpr rfl))
    have hany2 : m.any (fun r => r.1 == url) = true :=
      List.any_eq_true.mpr ⟨(url, wrapHandler h), hmem, by simp⟩
    simp [Reg, hany2]

/-- C6 witness: registering `/restconf` on a table that already holds it
aborts (the first registration on the empty table succeeds). -/
theorem reg_duplicate_fatal_witness :
    Reg [("/restconf", wrapHandler RestConf.Root)] "/restconf" RestConf.Root = none :=
  (reg_duplicate_fatal [] "/restconf" RestConf.Root RestConf.Root).2
    [("/restconf", wrapHandler RestConf.Root)] rfl

/-- C7 counterexample: the same route table presented in two iteration
orders (Go maps fix no order) dispatches `/restconf/dataX` to different
handlers, because both `/restconf` and `/restconf/data` are string
prefixes of it and no exact match exists; so the chosen handler is not
the same on every run. -/
theorem dispatch_depends_on_iteration_order :
    ([("/restconf", 0), ("/restconf/data", 1)] : List (String × Nat)).Perm
        [("/restconf/data", 1), ("/restconf", 0)]
    ∧ dispatchRoute ([("/restconf", 0), ("/restconf/data", 1)] : List (String × Nat))
        "/restconf/dataX"
      ≠ dispatchRoute ([("/restconf/data", 1), ("/restconf", 0)] : List (String × Nat))
        "/restconf/dataX" := by
  constructor
  · decide
  · decide

/-- C7 amended: dispatch on a fixed iteration order is a function, but
across iteration orders of the same table it is deterministic only when
an exact match exists or at most one registered path is a string prefix
of the normalized path; this theorem proves that restricted determinism
(the counterexample shows the unrestricted claim fails). -/
theorem dispatch_order_independent {H : Type} (mux1 mux2 : List (String × H)) (raw : String)
    (hperm : mux1.Perm mux2) (hnodup : (mux1.map Prod.fst).Nodup)
    (hcond : (∃ r ∈ mux1, r.1 = cleanPath raw) ∨
      (∀ r1 ∈ mux1, ∀ r2 ∈ mux1, goHasPre (cleanPath raw) r1.1 = true →
        goHasPre (cleanPath raw) r2.1 = true → r1 = r2)) :
    dispatchRoute mux1 raw = dispatchRoute mux2 raw := by
  have hnodup2 : (mux2.map Prod.fst).Nodup := ((hperm.map Prod.fst).nodup_iff).mp hnodup
  by_cases hex : ∃ r ∈ mux1, r.1 = cleanPath raw
  · obtain ⟨r, hr, hkey⟩ := hex
    obtain ⟨k, hh⟩ := r
    subst hkey
    have e1 := find?_key_unique hr hnodup
    have e2 := find?_key_unique (hperm.mem_iff.mp hr) hnodup2
    simp only [dispatchRoute]
    rw [e1, e2]
  · have hcond' : ∀ r1 ∈ mux1, ∀ r2 ∈ mux1, goHasPre (cleanPath raw) r1.1 = true →
        goHasPre (cleanPath raw) r2.1 = true → r1 = r2 := hcond.resolve_left hex
    have hf1 : mux1.find? (fun r => r.1 == cleanPath raw) = none :=
      List.find?_eq_none.mpr (fun x hx hpx => hex ⟨x, hx, beq_iff_eq.mp hpx⟩)
    have hf2 : mux2.find? (fun r => r.1 == cleanPath raw) = none :=
      List.find?_eq_none.mpr (fun x hx hpx => hex ⟨x, hperm.mem_iff.mpr hx, beq_iff_eq.mp hpx⟩)
    simp only [dispatchRoute]
    rw [hf1, hf2]
    show mux1.find? (fun r => goHasPre (cleanPath raw) r.1)
      = mux2.find? (fun r => goHasPre (cleanPath raw) r.1)
    cases hp1 : mux1.find? (fun r => goHasPre (cleanPath raw) r.1) with
    | none =>
      have h2 : mux2.find? (fun r => goHasPre (cleanPath raw) r.1) = none :=
        List.find?_eq_none.mpr (fun x hx hpx =>
          (List.find?_eq_none.mp hp1) x (hperm.mem_iff.mpr hx) hpx)
      rw [h2]
    | some r1 =>
      have hr1m : r1 ∈ mux1 := List.mem_of_find?_eq_some hp1
      have hr1p := List.find?_some hp1
      have hs2 : (mux2.find? (fun r => goHasPre (cleanPath raw) r.1)).isSome :=
        List.find?_isSome.mpr ⟨r1, hperm.mem_iff.mp hr1m, hr1p⟩
      obtain ⟨r2, hr2⟩ := Option.isSome_iff_exists.mp hs2
      have hr2m : r2 ∈ mux1 := hperm.mem_iff.mpr (List.mem_of_find?_eq_some hr2)
      have hr2p := List.find?_some hr2
      rw [hr2, hcond' r1 hr1m r2 hr2m hr1p hr2p]

/-- C7 amended witness: with a unique matching prefix, two iteration
orders of the same table agree. -/
theorem dispatch_order_independent_witness :
    dispatchRoute ([("/a", 0), ("/b", 1)] : List (String × Nat)) "/a/x"
      = dispatchRoute ([("/b", 1), ("/a", 0)] : List (String × Nat)) "/a/x" :=
  dispatch_order_independent _ _ "/a/x" (by decide) (by decide) (Or.inr (by decide))

/-- Running the server on the host-meta path reaches the wrapped
host-meta handler (an exact route match). -/
theorem serveHTTP_run_hostMeta (m a now : String) (rsp : Response) :
    serveHTTP newRestConfRoutes ⟨m, a, "/.well-known/host-meta", now⟩ rsp
      = RestConf.HostMeta ⟨m, a, "/.well-known/host-meta", now⟩
          ((rsp.setHeader "Server" "RESTCONF").setHeader "Date" now) := rfl

/-- Running the server on the RESTCONF root path reaches the wrapped
root handler. -/
theorem serveHTTP_run_root (m a now : String) (rsp : Response) :
    serveHTTP newRestConfRoutes ⟨m, a, "/restconf", now⟩ rsp
      = RestConf.Root ⟨m, a, "/restconf", now⟩
          ((rsp.setHeader "Server" "RESTCONF").setHeader "Date" now) := rfl

/-- Running the server on the yang-library-version path reaches the
wrapped version handler. -/
theorem serveHTTP_run_yangLibVer (m a now : String) (rsp : Response) :
    serveHTTP newRestConfRoutes ⟨m, a, "/restconf/yang-library-version", now⟩ rsp
      = RestConf.YangLibVer ⟨m, a, "/restconf/yang-library-version", now⟩
          ((rsp.setHeader "Server" "RESTCONF").setHeader "Date" now) := rfl

/-- C2 amended: every response produced through a matched route (exact or
prefix) carries `Server: RESTCONF` and a `Date` header equal to the
RFC-1123-formatted handling time, whatever iteration order the route
table is presented in; the counterexample shows the unmatched not-found
response carries neither, so the original claim's "including the
not-found response" part fails. -/
theorem matched_dispatch_sets_server_date (mux : Mux) (hperm : mux.Perm newRestConfRoutes)
    (req : Request) (rsp : Response)
    (hmatch : ∃ r ∈ mux, goHasPre (cleanPath req.urlPath) r.1 = true) :
    (serveHTTP mux req rsp).getHeader "Server" = some "RESTCONF" ∧
    (serveHTTP mux req rsp).getHeader "Date" = some req.now := by
  obtain ⟨r, hr, hrm⟩ := dispatchRoute_isSome_of_match mux req.urlPath hmatch
  have hserve : serveHTTP mux req rsp = r.2 req rsp := by
    simp only [serveHTTP, hr]
  have hmem : r ∈ newRestConfRoutes := hperm.mem_iff.mp hrm
  rw [hserve]
  simp only [newRestConfRoutes, List.mem_cons, List.not_mem_nil, or_false] at hmem
  rcases hmem with h | h | h | h | h
  · rw [h]
    exact wrapHandler_sets_server_date _ keepsHeader_hostMeta req rsp
  · rw [h]
    exact wrapHandler_sets_server_date _ keepsHeader_root req rsp
  · rw [h]
    exact wrapHandler_sets_server_date _ keepsHeader_data req rsp
  · rw [h]
    exact wrapHandler_sets_server_date _ keepsHeader_operations req rsp
  · rw [h]
    exact wrapHandler_sets_server_date _ keepsHeader_yangLibVer req rsp

/-- C2 amended witness: a matched request to `/restconf` carries the
`Server: RESTCONF` header. -/
theorem matched_dispatch_sets_server_date_witness :
    (serveHTTP newRestConfRoutes
        ⟨"GET", "application/yang-data+json", "/restconf", "Mon, 02 Jan 2006 15:04:05 MST"⟩
        Response.empty).getHeader "Server" = some "RESTCONF" :=
  (matched_dispatch_sets_server_date newRestConfRoutes (List.Perm.refl _) _ _ (by decide)).1

/-- C2 counterexample: the not-found response for an unmatched path goes
through `http.NotFound` directly, not through the header-setting wrapper
`Reg` installs, so it carries neither a `Server` nor a `Date` header —
refuting the claim that every response, including not-found, carries
them. -/
theorem notfound_response_lacks_server_date :
    (serveHTTP newRestConfRoutes ⟨"GET", "", "/no-such-path", "Mon, 02 Jan 2006 15:04:05 MST"⟩
        Response.empty).getHeader "Server" = none
    ∧ (serveHTTP newRestConfRoutes ⟨"GET", "", "/no-such-path", "Mon, 02 Jan 2006 15:04:05 MST"⟩
        Response.empty).getHeader "Date" = none := ⟨rfl, rfl⟩

/-- C3: the host-meta handler answers any non-GET method with 400 and
"method is not GET!" without consulting the Accept header; a GET with an
Accept other than `application/xrd+xml` gets 400 and "Accept is
incorrect!"; and a GET with the XRD Accept gets 200, the XRD content
type, and the fixed XRD body containing the literal substring showing
the RESTCONF root link. -/
theorem host_meta_responses (m a now : String) :
    (m ≠ "GET" →
      (serveHTTP newRestConfRoutes ⟨m, a, "/.well-known/host-meta", now⟩ Response.empty).status
          = some 400
      ∧ (serveHTTP newRestConfRoutes ⟨m, a, "/.well-known/host-meta", now⟩ Response.empty).body
          = "method is not GET!\n"
      ∧ ∀ a', serveHTTP newRestConfRoutes ⟨m, a, "/.well-known/host-meta", now⟩ Response.empty
          = serveHTTP newRestConfRoutes ⟨m, a', "/.well-known/host-meta", now⟩ Response.empty)
    ∧ (a ≠ APPLICATION_XRD_XML →
      (serveHTTP newRestConfRoutes ⟨"GET", a, "/.well-known/host-meta", now⟩ Response.empty).status
          = some 400
      ∧ (serveHTTP newRestConfRoutes ⟨"GET", a, "/.well-known/host-meta", now⟩ Response.empty).body
          = "Accept is incorrect!\n")
    ∧ ((serveHTTP newRestConfRoutes
          ⟨"GET", APPLICATION_XRD_XML, "/.well-known/host-meta", now⟩ Response.empty).status
          = some 200
      ∧ (serveHTTP newRestConfRoutes
          ⟨"GET", APPLICATION_XRD_XML, "/.well-known/host-meta", now⟩ Response.empty).getHeader
            "Content-Type" = some APPLICATION_XRD_XML
      ∧ containsSub "rel='restconf' href='/restconf'"
          (serveHTTP newRestConfRoutes
            ⟨"GET", APPLICATION_XRD_XML, "/.well-known/host-meta", now⟩ Response.empty).body
          = true) := by
  refine ⟨?_, ?_, rfl, rfl, rfl⟩
  · intro hm
    have h1 : ∀ a', serveHTTP newRestConfRoutes ⟨m, a', "/.well-known/host-meta", now⟩
        Response.empty
        = httpError ((Response.empty.setHeader "Server" "RESTCONF").setHeader "Date" now)
            "method is not GET!" 400 := by
      intro a'
      rw [serveHTTP_run_hostMeta]
      simp only [RestConf.HostMeta]
      rw [if_pos hm]
    refine ⟨?_, ?_, fun a' => ?_⟩
    · rw [h1 a]
      rfl
    · rw [h1 a]
      rfl
    · rw [h1 a, h1 a']
  · intro ha
    have h1 : serveHTTP newRestConfRoutes ⟨"GET", a, "/.well-known/host-meta", now⟩
        Response.empty
        = httpError ((Response.empty.setHeader "Server" "RESTCONF").setHeader "Date" now)
            "Accept is incorrect!" 400 := by
      rw [serveHTTP_run_hostMeta]
      simp only [RestConf.HostMeta]
      rw [if_neg (fun hc => hc rfl), if_pos ha]
    rw [h1]
    exact ⟨rfl, rfl⟩

/-- C3 witness: a POST to host-meta is rejected with 400 even with a
non-XRD Accept value; a GET with Accept `application/json` is rejected
with the Accept message. -/
theorem host_meta_responses_witness :
    (serveHTTP newRestConfRoutes
        ⟨"POST", "application/json", "/.well-known/host-meta", "d"⟩ Response.empty).status
      = some 400
    ∧ (serveHTTP newRestConfRoutes
        ⟨"GET", "application/json", "/.well-known/host-meta", "d"⟩ Response.empty).body
      = "Accept is incorrect!\n" :=
  ⟨((host_meta_responses "POST" "application/json" "d").1 (by decide)).1,
    ((host_meta_responses "GET" "application/json" "d").2.1 (by decide)).2⟩

/-- C4: the yang-library-version handler answers Accept
`application/yang-data+json` with 200, the JSON content type, and the
JSON body carrying key `yang-library-version` with value `2016-06-21`;
and Accept `application/yang-data+xml` with 200 and the XML body whose
root element `yang-library-version` carries the RESTCONF namespace and
the inner text `2016-06-21`. -/
theorem yang_library_version_responses (m now : String) :
    ((serveHTTP newRestConfRoutes
        ⟨m, APPLICATION_DATA_JSON, "/restconf/yang-library-version", now⟩ Response.empty).status
        = some 200
      ∧ (serveHTTP newRestConfRoutes
          ⟨m, APPLICATION_DATA_JSON, "/restconf/yang-library-version", now⟩
          Response.empty).getHeader "Content-Type" = some APPLICATION_DATA_JSON
      ∧ (serveHTTP newRestConfRoutes
          ⟨m, APPLICATION_DATA_JSON, "/restconf/yang-library-version", now⟩ Response.empty).body
          = "\x7b\"yang-library-version\":\"2016-06-21\"\x7d"
      ∧ textBetween "\"yang-library-version\":\"" "\""
          (serveHTTP newRestConfRoutes
            ⟨m, APPLICATION_DATA_JSON, "/restconf/yang-library-version", now⟩ Response.empty).body
          = some "2016-06-21")
    ∧ ((serveHTTP newRestConfRoutes
        ⟨m, APPLICATION_DATA_XML, "/restconf/yang-library-version", now⟩ Response.empty).status
        = some 200
      ∧ (serveHTTP newRestConfRoutes
          ⟨m, APPLICATION_DATA_XML, "/restconf/yang-library-version", now⟩ Response.empty).body
          = "<yang-library-version xmlns=\"urn:ietf:params:xml:ns:yang:ietf-restconf\">2016-06-21</yang-library-version>"
      ∧ textBetween "\">" "</yang-library-version>"
          (serveHTTP newRestConfRoutes
            ⟨m, APPLICATION_DATA_XML, "/restconf/yang-library-version", now⟩ Response.empty).body
          = some "2016-06-21") :=
  ⟨⟨rfl, rfl, rfl, rfl⟩, rfl, rfl, rfl⟩

/-- C5: the root handler answers Accept `application/yang-data+json`
with 200 and the JSON body nesting `data`, `operations` and
`yang-library-version` (the first two as empty objects) under the single
top-level key `ietf-restconf:restconf`; Accept `application/yang-data+xml`
with 200 and the three fields as direct children of a namespaced
`restconf` element; and every other Accept value with 400 and
"Accept is incorrect!". -/
theorem root_resource_responses (m now a : String) :
    ((serveHTTP newRestConfRoutes ⟨m, APPLICATION_DATA_JSON, "/restconf", now⟩
        Response.empty).status = some 200
      ∧ (serveHTTP newRestConfRoutes ⟨m, APPLICATION_DATA_JSON, "/restconf", now⟩
          Response.empty).getHeader "Content-Type" = some APPLICATION_DATA_JSON
      ∧ (serveHTTP newRestConfRoutes ⟨m, APPLICATION_DATA_JSON, "/restconf", now⟩
          Response.empty).body
          = "\x7b\"ietf-restconf:restconf\":\x7b\"data\":\x7b\x7d,\"operations\":\x7b\x7d,\"yang-library-version\":\"2016-06-21\"\x7d\x7d")
    ∧ ((serveHTTP newRestConfRoutes ⟨m, APPLICATION_DATA_XML, "/restconf", now⟩
        Response.empty).status = some 200
      ∧ (serveHTTP newRestConfRoutes ⟨m, APPLICATION_DATA_XML, "/restconf", now⟩
          Response.empty).body
          = "<restconf xmlns=\"urn:ietf:params:xml:ns:yang:ietf-restconf\"><data></data><operations></operations><yang-library-version>2016-06-21</yang-library-version></restconf>")
    ∧ (a ≠ APPLICATION_DATA_XML → a ≠ APPLICATION_DATA_JSON →
      (serveHTTP newRestConfRoutes ⟨m, a, "/restconf", now⟩ Response.empty).status = some 400
      ∧ (serveHTTP newRestConfRoutes ⟨m, a, "/restconf", now⟩ Response.empty).body
          = "Accept is incorrect!\n") := by
  refine ⟨⟨rfl, rfl, rfl⟩, ⟨rfl, rfl⟩, ?_⟩
  intro h1 h2
  have hrun : serveHTTP newRestConfRoutes ⟨m, a, "/restconf", now⟩ Response.empty
      = httpError ((Response.empty.setHeader "Server" "RESTCONF").setHeader "Date" now)
          "Accept is incorrect!" 400 := by
    rw [serveHTTP_run_root]
    simp only [RestConf.Root]
    rw [if_neg h1, if_neg h2]
  rw [hrun]
  exact ⟨rfl, rfl⟩

/-- C5 witness: a request to the root with Accept `text/html` is
answered 400 with the Accept message. -/
theorem root_resource_responses_witness :
    (serveHTTP newRestConfRoutes ⟨"GET", "text/html", "/restconf", "d"⟩ Response.empty).status
      = some 400 :=
  ((root_resource_responses "GET" "d" "text/html").2.2 (by decide) (by decide)).1

/-- C9: a marshal error in the shared respond step is answered with HTTP
417 and a message prefixed "Marshal failed!" followed by the error text;
and for the fixed, well-formed resource values the root and
yang-library-version handlers build, the marshal step always succeeds,
so on a fresh response neither handler can ever produce status 417. -/
theorem marshal_failure_handling :
    (∀ format e rsp, marshalRespond format (Except.error e) rsp
        = httpError rsp ("Marshal failed!" ++ e) 417)
    ∧ (∀ req rsp, rsp.status = none →
        (RestConf.Root req rsp).status ≠ some 417
        ∧ (RestConf.YangLibVer req rsp).status ≠ some 417) := by
  constructor
  · intro format e rsp
    rfl
  · intro req rsp h
    have hok : ∀ f b, (marshalRespond f (Except.ok b) rsp).status = some 200 := by
      intro f b
      show (((rsp.setHeader "Content-Type" f).writeHeader 200).write b).status = some 200
      simp [Response.setHeader, Response.writeHeader, Response.write, h]
    have herr : ∀ msg c, (httpError rsp msg c).status = some c := by
      intro msg c
      simp [httpError, Response.setHeader, Response.writeHeader, Response.write, h]
    constructor
    · simp only [RestConf.Root]
      split
      · show (marshalRespond req.accept (Except.ok RestConf.rootValue.xmlMarshal) rsp).status
            ≠ some 417
        rw [hok]
        decide
      · split
        · show (marshalRespond req.accept
              (Except.ok (RestConfJson.mk RestConf.rootValue).jsonMarshal) rsp).status ≠ some 417
          rw [hok]
          decide
        · rw [herr]
          decide
    · simp only [RestConf.YangLibVer]
      split
      · show (marshalRespond req.accept (Except.ok RestConf.yangLibVerValue.xmlMarshal)
              rsp).status ≠ some 417
        rw [hok]
        decide
      · split
        · show (marshalRespond req.accept (Except.ok RestConf.yangLibVerValue.jsonMarshal)
                rsp).status ≠ some 417
          rw [hok]
          decide
        · rw [herr]
          decide

/-- C9 witness: on a fresh response a root request never yields 417. -/
theorem marshal_failure_handling_witness :
    (RestConf.Root ⟨"GET", "application/yang-data+json", "/restconf", "d"⟩
        Response.empty).status ≠ some 417 :=
  (marshal_failure_handling.2 ⟨"GET", "application/yang-data+json", "/restconf", "d"⟩
    Response.empty rfl).1

/-- C10: the root and yang-library-version handlers never inspect the
HTTP method: a request with any method, any Accept value and any
response state produces exactly the response the corresponding GET
produces — only the Accept header determines the outcome. -/
theorem handlers_ignore_method (m a now : String) (rsp : Response) :
    serveHTTP newRestConfRoutes ⟨m, a, "/restconf", now⟩ rsp
      = serveHTTP newRestConfRoutes ⟨"GET", a, "/restconf", now⟩ rsp
    ∧ serveHTTP newRestConfRoutes ⟨m, a, "/restconf/yang-library-version", now⟩ rsp
      = serveHTTP newRestConfRoutes ⟨"GET", a, "/restconf/yang-library-version", now⟩ rsp :=
  ⟨rfl, rfl⟩

/-- C8: for the two resource representations the program builds, the XML
and the JSON serialization both parse back to the same version string
(no loss or gain between formats), and the XML namespace attribute
occurs only in the XML encodings, never in the JSON encodings. -/
theorem serialization_roundtrip_and_xmlns :
    textBetween "\">" "</yang-library-version>" RestConf.yangLibVerValue.xmlMarshal
        = some RestConf.yangLibVerValue.Version
    ∧ textBetween "\"yang-library-version\":\"" "\"" RestConf.yangLibVerValue.jsonMarshal
        = some RestConf.yangLibVerValue.Version
    ∧ textBetween "<yang-library-version>" "</yang-library-version>"
        RestConf.rootValue.xmlMarshal = some RestConf.rootValue.Yang
    ∧ textBetween "\"yang-library-version\":\"" "\""
        (RestConfJson.mk RestConf.rootValue).jsonMarshal = some RestConf.rootValue.Yang
    ∧ containsSub "xmlns" RestConf.yangLibVerValue.xmlMarshal = true
    ∧ containsSub "xmlns" RestConf.rootValue.xmlMarshal = true
    ∧ containsSub "xmlns" RestConf.yangLibVerValue.jsonMarshal = false
    ∧ containsSub "xmlns" (RestConfJson.mk RestConf.rootValue).jsonMarshal = false := by
  decide

end GoRestconf
